import Mathlib

/-!
Verification of the coding-community backend (`src/main.py`, `src/schemas.py`).

Conventions of the shallow embedding:

* Calendar dates are modelled as day ordinals (`Int`).  The source stores
  dates as `YYYY-MM-DD` strings; on such strings lexicographic order,
  `$gte` comparison, and `timedelta` arithmetic composed with
  `strftime`/`strptime` agree with the order and arithmetic of day
  ordinals, so the translation replaces a date string by its ordinal and
  `timedelta(days=n)` by subtraction of `n`.  The handlers read the clock
  once per request conceptually; the current day `today_str()` /
  `datetime.now(...)` is passed in as an explicit `today : Int`
  (respectively `date : String` for the challenge generator, which also
  consumes the formatted string character by character).
* HTTP error responses (`HTTPException`) are `Except.error code`.
* The document store (`database.py`) is not among the sources; its two
  operations are modelled from the spec, see `create_document` and
  `get_documents` below.
-/

/-- The fixed supported-language list of `src/main.py` lines 24-31. -/
def LANGUAGES : List String :=
  ["python", "javascript", "java", "go", "rust", "cpp"]

/-- A document of the `submission` collection: the dict built at
`src/main.py` lines 158-162 (`username`, `language`, `date`). -/
structure SubDoc where
  username : String
  language : String
  date : Int
deriving DecidableEq, Repr

/-- A document of the `communitypost` collection (`CreatePost` payload,
`src/main.py` lines 41-46). -/
structure PostDoc where
  language : String
  kind : String
  title : String
  content : String
  author : String
deriving DecidableEq, Repr

/-- Modelled from the spec: `database.py` is not among the source files.
Per §6, `createDocument(collectionName, record) -> generatedId` appends the
record to the named collection.  The generated id is returned to callers of
`/posts` and `/comments` but never read by the challenge or streak logic,
so it is abstracted away and the operation is modelled as appending to the
collection's list of records. -/
def create_document {α : Type} (collection : List α) (doc : α) : List α :=
  collection ++ [doc]

/-- Modelled from the spec: `database.py` is not among the source files.
Per §6, `getDocuments(collectionName, filter, limit) -> list of records`
returns the records of the collection matching the filter, which supports
equality on fields and a greater-than-or-equal comparison on the date
field.  The call sites instantiate `p` with their concrete filter dict.
The `limit` argument (1000 at the streak call sites) has no truncation
semantics in the spec, which describes the result as the set of matching
records, so it is abstracted away. -/
def get_documents {α : Type} (collection : List α) (p : α → Bool) : List α :=
  collection.filter p

/-- The ordered title table of `src/main.py` lines 82-91. -/
def titles : List String :=
  ["Two Sum Variant",
   "String Compression",
   "Balanced Brackets",
   "LRU Cache Mini",
   "Matrix Spiral",
   "Binary Tree Paths",
   "Anagram Groups",
   "Word Ladder Mini"]

/-- The ordered description table of `src/main.py` lines 92-96. -/
def descriptions : List String :=
  ["Solve the task and share your approach.",
   "Write clean, idiomatic code and discuss trade-offs.",
   "Consider time/space complexity and edge cases."]

/-- Python's `str.title()` on a list of characters: a character is
uppercased when the previous character is not alphabetic, lowercased
otherwise (exact for the ASCII strings involved here). -/
def pyTitleAux : Bool → List Char → List Char
  | _, [] => []
  | prevAlpha, c :: cs =>
      (if prevAlpha then c.toLower else c.toUpper) :: pyTitleAux c.isAlpha cs

/-- Python's `str.title()` as used in `f"{language.title()} Daily: ..."`
(`src/main.py` line 105). -/
def pyTitle (s : String) : String :=
  ⟨pyTitleAux false s.toList⟩

/-- The challenge descriptor returned by `GET /challenges/{language}`
(the dict of `src/main.py` lines 102-108). -/
structure Challenge where
  date : String
  language : String
  title : String
  description : String
  id : String
deriving DecidableEq, Repr

/-- `get_daily_challenge` (`src/main.py` lines 74-108).  `date` stands for
`today_str()`; `sum(ord(c) for c in (language + date))` is the sum of the
code points of the concatenation. -/
def get_daily_challenge (language : String) (date : String) : Except Nat Challenge :=
  if language ∉ LANGUAGES then
    Except.error 404
  else
    let seed := ((language ++ date).toList.map Char.toNat).sum
    Except.ok
      { date := date
        language := language
        title := pyTitle language ++ " Daily: " ++ titles.getD (seed % titles.length) ""
        description := descriptions.getD (seed % descriptions.length) ""
        id := language ++ "-" ++ date }

/-- The title table exactly as written in the spec's §6 external contract. -/
def spec_titles : List String :=
  ["Two Sum Variant",
   "String Compression",
   "Balanced Brackets",
   "LRU Cache Mini",
   "Matrix Spiral",
   "Binary Tree Paths",
   "Anagram Groups",
   "Word Ladder Mini"]

/-- The description table exactly as written in the spec's §6 external
contract. -/
def spec_descriptions : List String :=
  ["Solve the task and share your approach.",
   "Write clean, idiomatic code and discuss trade-offs.",
   "Consider time/space complexity and edge cases."]

/-- The challenge descriptor as the SPEC's words describe it (§4.1 and
claim C1), written independently of the source for the refinement
comparison: seed is the sum of character codes of `language ++ date`,
the title is the `seed mod 8` entry of the 8-entry title table prefixed
with the capitalized language, the description is the `seed mod 3` entry
of the 3-entry description table, and the id is `"<language>-<date>"`. -/
def spec_descriptor (language : String) (date : String) : Challenge :=
  let seed := ((language ++ date).toList.map Char.toNat).sum
  { date := date
    language := language
    title := language.capitalize ++ " Daily: " ++ spec_titles.getD (seed % 8) ""
    description := spec_descriptions.getD (seed % 3) ""
    id := language ++ "-" ++ date }

/-- On every supported language, Python's `title()` and plain
capitalization of the first letter agree (the supported names are single
lowercase words). -/
theorem pyTitle_eq_capitalize : ∀ L ∈ LANGUAGES, pyTitle L = L.capitalize := by
  decide

/-- The filter dict
`{"username": username, "language": language, "date": {"$gte": start_date}}`
passed to `get_documents` at `src/main.py` lines 168-172 and 191-195. -/
def submissionFilter (username language : String) (start_date : Int) (r : SubDoc) : Bool :=
  r.username == username && r.language == language && decide (start_date ≤ r.date)

/-- The distinct set of in-window submission dates:
`{it["date"] for it in items}` over the result of the 60-day window query
(`src/main.py` lines 167-173 and 190-196).  `today - 60` is `start_date`. -/
def distinctDates (username language : String) (today : Int) (subs : List SubDoc) : Finset Int :=
  ((get_documents subs (submissionFilter username language (today - 60))).map SubDoc.date).toFinset

/-- The `while` loop of `src/main.py` lines 178-180 / 200-202:
starting at `current`, count down one day at a time while the day is in
`sset`.  A successful iteration consumes a distinct member of the finite
`sset` (tested days strictly decrease), so the loop runs at most
`sset.card` successful iterations followed by one failing test; the
embedding makes that bound an explicit fuel argument, instantiated with
`sset.card + 1` at both call sites, which the loop never exhausts
(see `streakLoop_fuel_irrelevant`). -/
def streakLoop (sset : Finset Int) : Nat → Int → Nat
  | 0, _ => 0
  | fuel + 1, current =>
      if current ∈ sset then streakLoop sset fuel (current - 1) + 1 else 0

/-- The body shared by `GET /streak/...` and `POST /submit`
(`src/main.py` lines 173-180 and 196-202): sorted distinct dates and the
streak ending at `today`.  `days = sorted({it["date"] for it in items})`
is the ascending duplicate-free list of the queried dates, embedded as
insertion sort of `dedup` (the unique `≤`-sorted `Nodup` list with those
members, see `daysList_toFinset`); `sset = set(days)`. -/
def streakDays (username language : String) (today : Int) (subs : List SubDoc) :
    Nat × List Int :=
  let items := get_documents subs (submissionFilter username language (today - 60))
  let days := ((items.map SubDoc.date).dedup).insertionSort (· ≤ ·)
  let sset := days.toFinset
  (streakLoop sset (sset.card + 1) today, days)

/-- The `days` component of `streakDays` on its own. -/
def daysList (username language : String) (today : Int) (subs : List SubDoc) : List Int :=
  (((get_documents subs (submissionFilter username language (today - 60))).map
      SubDoc.date).dedup).insertionSort (· ≤ ·)

/-- The `{streak, days}` response of `GET /streak/{username}/{language}`. -/
structure StreakResult where
  streak : Nat
  days : List Int
deriving DecidableEq, Repr

/-- The `{ok, date, streak}` response of `POST /submit`. -/
structure SubmitResponse where
  ok : Bool
  date : Int
  streak : Nat
deriving DecidableEq, Repr

/-- `get_streak` (`src/main.py` lines 185-203).  `today` stands for the
current day (`today_str()` and the `now - 60 days` start date are derived
from the same clock reading). -/
def get_streak (username language : String) (today : Int) (subs : List SubDoc) :
    Except Nat StreakResult :=
  if language ∉ LANGUAGES then
    Except.error 400
  else
    let r := streakDays username language today subs
    Except.ok { streak := r.1, days := r.2 }

/-- `submit_solution` (`src/main.py` lines 151-182): validate the
language, append today's submission record, re-query the 60-day window
(which now contains the appended record) and compute the streak.  The
result pairs the HTTP response with the new state of the `submission`
collection; on the validation error path the collection is unchanged. -/
def submit_solution (username language : String) (today : Int) (subs : List SubDoc) :
    Except Nat SubmitResponse × List SubDoc :=
  if language ∉ LANGUAGES then
    (Except.error 400, subs)
  else
    let date := today
    let subs2 := create_document subs { username := username, language := language, date := date }
    let r := streakDays username language today subs2
    (Except.ok { ok := true, date := date, streak := r.1 }, subs2)

/-- `create_post` (`src/main.py` lines 111-119): validate language and
kind, then append to the `communitypost` collection.  The store-generated
id of the response is abstracted (see `create_document`); the pair gives
the HTTP outcome and the new state of the collection, unchanged on the
error paths. -/
def create_post (payload : PostDoc) (posts : List PostDoc) :
    Except Nat Unit × List PostDoc :=
  if payload.language ∉ LANGUAGES then
    (Except.error 400, posts)
  else if payload.kind ∉ (["project", "question"] : List String) then
    (Except.error 400, posts)
  else
    (Except.ok (), create_document posts payload)

/-- The `/challenges/{language}` route handler in request context: the
only mutable state reachable from the handler is the document store, which
`get_daily_challenge` (`src/main.py` lines 74-108) never reads or writes;
the embedding therefore takes the `submission` store as an argument that
the body ignores. -/
def challenges_route (language : String) (date : String) (_store : List SubDoc) :
    Except Nat Challenge :=
  get_daily_challenge language date

/-- Unfolding equation of `streakLoop` with fuel left. -/
theorem streakLoop_succ (sset : Finset Int) (fuel : Nat) (c : Int) :
    streakLoop sset (fuel + 1) c =
      if c ∈ sset then streakLoop sset fuel (c - 1) + 1 else 0 :=
  rfl

/-- Unfolding equation of `streakLoop` with no fuel. -/
theorem streakLoop_zero (sset : Finset Int) (c : Int) :
    streakLoop sset 0 c = 0 :=
  rfl

/-- For `c ∈ sset`, the in-window members at most `c` are `c` itself and
the members at most `c - 1`. -/
theorem filter_le_split (sset : Finset Int) (c : Int) (hc : c ∈ sset) :
    sset.filter (fun x => x ≤ c) = insert c (sset.filter (fun x => x ≤ c - 1)) := by
  ext x
  simp only [Finset.mem_filter, Finset.mem_insert]
  constructor
  · rintro ⟨hx, hxc⟩
    rcases eq_or_lt_of_le hxc with h | h
    · exact Or.inl h
    · exact Or.inr ⟨hx, by omega⟩
  · rintro (rfl | ⟨hx, hxc⟩)
    · exact ⟨hc, le_refl _⟩
    · exact ⟨hx, by omega⟩

/-- `c` is not a member at most `c - 1`. -/
theorem not_mem_filter_le_pred (sset : Finset Int) (c : Int) :
    c ∉ sset.filter (fun x => x ≤ c - 1) := by
  simp only [Finset.mem_filter, not_and]
  intro _
  omega

/-- Each successful iteration of the loop consumes a distinct member of
`sset` that is at most the starting day, so the streak is bounded by the
number of such members, whatever the fuel. -/
theorem streakLoop_le_card_filter (sset : Finset Int) (fuel : Nat) (c : Int) :
    streakLoop sset fuel c ≤ (sset.filter (fun x => x ≤ c)).card := by
  induction fuel generalizing c with
  | zero => simp [streakLoop_zero]
  | succ fuel ih =>
      by_cases hc : c ∈ sset
      · rw [streakLoop_succ, if_pos hc, filter_le_split sset c hc,
          Finset.card_insert_of_not_mem (not_mem_filter_le_pred sset c)]
        exact Nat.succ_le_succ (ih (c - 1))
      · rw [streakLoop_succ, if_neg hc]
        exact Nat.zero_le _

/-- One extra unit of fuel changes nothing once the fuel exceeds the
number of members of `sset` at most `c`: the loop has already terminated. -/
theorem streakLoop_fuel_step (sset : Finset Int) (fuel : Nat) (c : Int)
    (h : (sset.filter (fun x => x ≤ c)).card < fuel) :
    streakLoop sset (fuel + 1) c = streakLoop sset fuel c := by
  induction fuel generalizing c with
  | zero => omega
  | succ fuel ih =>
      by_cases hc : c ∈ sset
      · have hcard : (sset.filter (fun x => x ≤ c - 1)).card < fuel := by
          rw [filter_le_split sset c hc,
            Finset.card_insert_of_not_mem (not_mem_filter_le_pred sset c)] at h
          omega
        rw [streakLoop_succ sset (fuel + 1) c, streakLoop_succ sset fuel c,
          if_pos hc, if_pos hc, ih (c - 1) hcard]
      · rw [streakLoop_succ sset (fuel + 1) c, streakLoop_succ sset fuel c,
          if_neg hc, if_neg hc]

/-- The fuel never matters once it exceeds the number of members of `sset`
at most the starting day: the embedding's bound `sset.card + 1` computes
the same value as any larger bound, i.e. the same value as the unbounded
`while` loop of the source. -/
theorem streakLoop_fuel_irrelevant (sset : Finset Int) (c : Int) (f g : Nat)
    (hf : (sset.filter (fun x => x ≤ c)).card < f)
    (hg : (sset.filter (fun x => x ≤ c)).card < g) :
    streakLoop sset f c = streakLoop sset g c := by
  have key : ∀ (n d : Nat), (sset.filter (fun x => x ≤ c)).card < n →
      streakLoop sset (n + d) c = streakLoop sset n c := by
    intro n d
    induction d with
    | zero => intro _; rfl
    | succ d ih =>
        intro hn
        have : streakLoop sset (n + d + 1) c = streakLoop sset (n + d) c :=
          streakLoop_fuel_step sset (n + d) c (by omega)
        rw [show n + (d + 1) = n + d + 1 from rfl, this, ih hn]
  rcases le_total f g with h | h
  · have := key f (g - f) hf
    rw [show f + (g - f) = g from by omega] at this
    exact this.symm
  · have := key g (f - g) hg
    rw [show g + (f - g) = f from by omega] at this
    exact this

/-- When the days `c, c-1, ..., c-k+1` are all in `sset` and `c-k` is not,
the loop counts exactly `k`, provided the fuel exceeds `k`. -/
theorem streakLoop_run (sset : Finset Int) (k : Nat) (c : Int) (fuel : Nat)
    (hin : ∀ j : Nat, j < k → c - j ∈ sset) (hout : c - k ∉ sset)
    (hfuel : k < fuel) :
    streakLoop sset fuel c = k := by
  induction k generalizing c fuel with
  | zero =>
      obtain ⟨f, rfl⟩ : ∃ f, fuel = f + 1 := ⟨fuel - 1, by omega⟩
      have hc : c ∉ sset := by simpa using hout
      rw [streakLoop_succ, if_neg hc]
  | succ k ih =>
      obtain ⟨f, rfl⟩ : ∃ f, fuel = f + 1 := ⟨fuel - 1, by omega⟩
      have hc : c ∈ sset := by simpa using hin 0 (by omega)
      rw [streakLoop_succ, if_pos hc]
      have hrec : streakLoop sset f (c - 1) = k := by
        apply ih
        · intro j hj
          have := hin (j + 1) (by omega)
          have hcast : c - 1 - (j : Int) = c - ((j : Nat) + 1 : Nat) := by
            push_cast
            ring
          rw [hcast]
          exact this
        · have hcast : c - 1 - (k : Int) = c - ((k : Nat) + 1 : Nat) := by
            push_cast
            ring
          rw [hcast]
          exact hout
        · omega
      rw [hrec]

/-- Deduplication does not change the underlying finite set. -/
theorem dedup_toFinset_eq (l : List Int) : l.dedup.toFinset = l.toFinset := by
  ext x
  simp [List.mem_dedup]

/-- The days list is duplicate-free. -/
theorem daysList_nodup (u l : String) (today : Int) (subs : List SubDoc) :
    (daysList u l today subs).Nodup := by
  unfold daysList
  exact (List.perm_insertionSort _ _).nodup_iff.2 (List.nodup_dedup _)

/-- The days list is sorted ascending. -/
theorem daysList_sorted (u l : String) (today : Int) (subs : List SubDoc) :
    List.Sorted (· ≤ ·) (daysList u l today subs) :=
  List.sorted_insertionSort _ _

/-- The underlying set of the days list is the distinct in-window date
set. -/
theorem daysList_toFinset (u l : String) (today : Int) (subs : List SubDoc) :
    (daysList u l today subs).toFinset = distinctDates u l today subs := by
  unfold daysList distinctDates
  rw [List.toFinset_eq_of_perm _ _ (List.perm_insertionSort _ _), dedup_toFinset_eq]

/-- `streakDays` written through `distinctDates` and `daysList`. -/
theorem streakDays_eq (u l : String) (today : Int) (subs : List SubDoc) :
    streakDays u l today subs =
      (streakLoop (distinctDates u l today subs)
        ((distinctDates u l today subs).card + 1) today,
       daysList u l today subs) := by
  have h := daysList_toFinset u l today subs
  unfold daysList at h
  simp only [streakDays, h]
  rfl

/-- `get_streak` on a supported language, through `distinctDates` and
`daysList`. -/
theorem get_streak_ok (u l : String) (today : Int) (subs : List SubDoc)
    (hl : l ∈ LANGUAGES) :
    get_streak u l today subs =
      Except.ok
        { streak := streakLoop (distinctDates u l today subs)
            ((distinctDates u l today subs).card + 1) today,
          days := daysList u l today subs } := by
  have hnl : ¬l ∉ LANGUAGES := by simpa using hl
  simp only [get_streak, streakDays_eq, if_neg hnl]

/-- Two stores with the same distinct in-window date set have the same
days list: a `≤`-sorted duplicate-free list is determined by its set of
members. -/
theorem daysList_congr (u l : String) (today : Int) (s1 s2 : List SubDoc)
    (h : distinctDates u l today s1 = distinctDates u l today s2) :
    daysList u l today s1 = daysList u l today s2 := by
  apply List.eq_of_perm_of_sorted ?_ (daysList_sorted u l today s1)
    (daysList_sorted u l today s2)
  apply List.perm_of_nodup_nodup_toFinset_eq (daysList_nodup u l today s1)
    (daysList_nodup u l today s2)
  rw [daysList_toFinset, daysList_toFinset, h]

/-- The streak response depends on the store only through the distinct
in-window date set. -/
theorem get_streak_congr (u l : String) (today : Int) (s1 s2 : List SubDoc)
    (h : distinctDates u l today s1 = distinctDates u l today s2) :
    get_streak u l today s1 = get_streak u l today s2 := by
  unfold get_streak
  rw [streakDays_eq, streakDays_eq, h, daysList_congr u l today s1 s2 h]

/-- Appending a record that already occurs in the store does not change
the distinct in-window date set. -/
theorem distinctDates_append_dup (u l : String) (today : Int) (subs : List SubDoc)
    (r : SubDoc) (hr : r ∈ subs) :
    distinctDates u l today (subs ++ [r]) = distinctDates u l today subs := by
  unfold distinctDates get_documents
  rw [List.filter_append, List.filter_singleton]
  by_cases hp : submissionFilter u l (today - 60) r
  · simp only [hp, cond_true, List.map_append, List.toFinset_append]
    have hmem : r.date ∈ (List.map SubDoc.date (subs.filter (submissionFilter u l (today - 60)))).toFinset := by
      rw [List.mem_toFinset]
      exact List.mem_map.2 ⟨r, List.mem_filter.2 ⟨hr, hp⟩, rfl⟩
    rw [Finset.union_eq_left]
    intro x hx
    simp only [List.map_cons, List.map_nil, List.toFinset_cons, List.toFinset_nil,
      Finset.mem_insert, Finset.not_mem_empty, or_false] at hx
    rw [hx]
    exact hmem
  · simp only [Bool.not_eq_true] at hp
    simp only [hp, cond_false, List.append_nil]

/-- Appending a record that fails the window filter does not change the
distinct in-window date set. -/
theorem distinctDates_append_out (u l : String) (today : Int) (subs : List SubDoc)
    (r : SubDoc) (hp : submissionFilter u l (today - 60) r = false) :
    distinctDates u l today (subs ++ [r]) = distinctDates u l today subs := by
  unfold distinctDates get_documents
  rw [List.filter_append, List.filter_singleton]
  simp only [hp, cond_false, List.append_nil]

/-- Claim C1: for every supported language `L` and date string `D`, the
generated challenge descriptor has seed the sum of the character codes of
`L ++ D`, title the `seed mod 8` entry of the 8-entry title table prefixed
with the capitalized language and `" Daily: "`, description the
`seed mod 3` entry of the 3-entry description table, and id
`"<language>-<date>"` — i.e. `get_daily_challenge` returns exactly the
descriptor the spec's words prescribe. -/
theorem claim_C1_challenge_descriptor (L D : String) (hL : L ∈ LANGUAGES) :
    get_daily_challenge L D = Except.ok (spec_descriptor L D) := by
  have ht := pyTitle_eq_capitalize L hL
  have hnl : ¬L ∉ LANGUAGES := by simpa using hL
  simp only [get_daily_challenge, spec_descriptor, if_neg hnl, ht]
  simp [titles, spec_titles, descriptions, spec_descriptions]

/-- Witness for C1 at the spec's own fixed vector `("python", "2024-01-15")`. -/
theorem claim_C1_witness :
    "python" ∈ LANGUAGES ∧
      get_daily_challenge "python" "2024-01-15" =
        Except.ok (spec_descriptor "python" "2024-01-15") :=
  ⟨by decide, claim_C1_challenge_descriptor "python" "2024-01-15" (by decide)⟩

/-- Claim C9: challenge generation is deterministic and independent of the
document store: the route evaluated under any two stores (and hence under
repeated evaluation) yields the same descriptor, which is a pure function
of `(language, date)`. -/
theorem claim_C9_challenge_deterministic (L D : String) (db1 db2 : List SubDoc) :
    challenges_route L D db1 = challenges_route L D db2 ∧
      challenges_route L D db1 = get_daily_challenge L D :=
  ⟨rfl, rfl⟩

/-- Claim C7: for a language outside the supported set, each endpoint
rejects before any write: `GET /challenges/{language}` fails with 404,
`POST /posts`, `POST /submit` and `GET /streak/{username}/{language}` fail
with 400, and on each error path the relevant collection is returned
unchanged (no document was created). -/
theorem claim_C7_unsupported_rejected (language : String) (h : language ∉ LANGUAGES)
    (date u kind ti content author : String)
    (posts : List PostDoc) (subs : List SubDoc) (today : Int) :
    get_daily_challenge language date = Except.error 404 ∧
      create_post
          { language := language, kind := kind, title := ti,
            content := content, author := author } posts =
        (Except.error 400, posts) ∧
      submit_solution u language today subs = (Except.error 400, subs) ∧
      get_streak u language today subs = Except.error 400 := by
  refine ⟨?_, ?_, ?_, ?_⟩
  · simp [get_daily_challenge, h]
  · simp [create_post, h]
  · simp [submit_solution, h]
  · simp [get_streak, h]

/-- Witness for C7 at the spec's own example `"klingon"`. -/
theorem claim_C7_witness :
    "klingon" ∉ LANGUAGES ∧
      (get_daily_challenge "klingon" "2024-01-15" = Except.error 404 ∧
        create_post
            { language := "klingon", kind := "project", title := "t",
              content := "c", author := "a" } [] =
          (Except.error 400, []) ∧
        submit_solution "alice" "klingon" 0 [] = (Except.error 400, []) ∧
        get_streak "alice" "klingon" 0 [] = Except.error 400) :=
  ⟨by decide,
    claim_C7_unsupported_rejected "klingon" (by decide) "2024-01-15" "alice"
      "project" "t" "c" "a" [] [] 0⟩

/-- Claim C3: if no stored submission of the given user and language is
dated `today`, the computed streak is 0, however many submissions exist on
earlier dates. -/
theorem claim_C3_no_today_zero_streak (u l : String) (today : Int)
    (subs : List SubDoc) (hl : l ∈ LANGUAGES)
    (h : ∀ r ∈ subs, r.username = u → r.language = l → r.date ≠ today) :
    ∃ days, get_streak u l today subs = Except.ok { streak := 0, days := days } := by
  refine ⟨daysList u l today subs, ?_⟩
  rw [get_streak_ok u l today subs hl]
  have hmem : today ∉ distinctDates u l today subs := by
    simp only [distinctDates, get_documents, List.mem_toFinset, List.mem_map,
      List.mem_filter, submissionFilter, Bool.and_eq_true, beq_iff_eq,
      decide_eq_true_eq, not_exists, not_and]
    rintro r ⟨hr, ⟨hu, hlang⟩, _⟩ hdate
    exact h r hr hu hlang hdate
  rw [streakLoop_succ, if_neg hmem]

/-- Witness for C3: two submissions yesterday and the day before, none
today. -/
theorem claim_C3_witness :
    ("python" ∈ LANGUAGES ∧
        ∀ r ∈ [SubDoc.mk "alice" "python" 9, SubDoc.mk "alice" "python" 8],
          r.username = "alice" → r.language = "python" → r.date ≠ 10) ∧
      ∃ days,
        get_streak "alice" "python" 10
            [SubDoc.mk "alice" "python" 9, SubDoc.mk "alice" "python" 8] =
          Except.ok { streak := 0, days := days } :=
  ⟨⟨by decide, by decide⟩,
    claim_C3_no_today_zero_streak "alice" "python" 10
      [SubDoc.mk "alice" "python" 9, SubDoc.mk "alice" "python" 8]
      (by decide) (by decide)⟩

/-- Claim C2: when the distinct in-window submission dates are exactly the
`k` consecutive days `R, R-1, ..., R-k+1`, the computed streak is `k`. -/
theorem claim_C2_consecutive_run (u l : String) (R : Int) (subs : List SubDoc)
    (k : Nat) (hl : l ∈ LANGUAGES)
    (hset : distinctDates u l R subs = (Finset.range k).image (fun j : Nat => R - (j : Int))) :
    ∃ days, get_streak u l R subs = Except.ok { streak := k, days := days } := by
  refine ⟨daysList u l R subs, ?_⟩
  rw [get_streak_ok u l R subs hl]
  have hinj : Function.Injective (fun j : Nat => R - (j : Int)) := by
    intro a b hab
    simp only at hab
    omega
  have hcard : (distinctDates u l R subs).card = k := by
    rw [hset, Finset.card_image_of_injective _ hinj, Finset.card_range]
  have hin : ∀ j : Nat, j < k → R - j ∈ distinctDates u l R subs := by
    intro j hj
    rw [hset]
    exact Finset.mem_image.2 ⟨j, Finset.mem_range.2 hj, rfl⟩
  have hout : R - k ∉ distinctDates u l R subs := by
    rw [hset]
    intro hmem
    obtain ⟨j, hj, heq⟩ := Finset.mem_image.1 hmem
    rw [Finset.mem_range] at hj
    omega
  rw [streakLoop_run (distinctDates u l R subs) k R
    ((distinctDates u l R subs).card + 1) hin hout (by omega)]

/-- Witness for C2: three consecutive days ending at the reference date
(the spec's three-day scenario), streak 3. -/
theorem claim_C2_witness :
    ("python" ∈ LANGUAGES ∧
        distinctDates "alice" "python" 10
            [SubDoc.mk "alice" "python" 10, SubDoc.mk "alice" "python" 9,
              SubDoc.mk "alice" "python" 8] =
          (Finset.range 3).image (fun j : Nat => (10 : Int) - (j : Int))) ∧
      ∃ days,
        get_streak "alice" "python" 10
            [SubDoc.mk "alice" "python" 10, SubDoc.mk "alice" "python" 9,
              SubDoc.mk "alice" "python" 8] =
          Except.ok { streak := 3, days := days } :=
  ⟨⟨by decide, by decide⟩,
    claim_C2_consecutive_run "alice" "python" 10
      [SubDoc.mk "alice" "python" 10, SubDoc.mk "alice" "python" 9,
        SubDoc.mk "alice" "python" 8] 3 (by decide) (by decide)⟩

/-- Claim C4: the streak computation is invariant under duplicating
submission records: appending a record whose (username, language, date)
triple already occurs in the store yields the same response — same streak
and same days list — for every queried user and language. -/
theorem claim_C4_duplicate_invariant (u l : String) (today : Int)
    (subs : List SubDoc) (r : SubDoc) (hr : r ∈ subs) :
    get_streak u l today (subs ++ [r]) = get_streak u l today subs :=
  get_streak_congr u l today (subs ++ [r]) subs
    (distinctDates_append_dup u l today subs r hr)

/-- Witness for C4: duplicating today's single submission leaves the
response unchanged. -/
theorem claim_C4_witness :
    SubDoc.mk "alice" "python" 10 ∈ [SubDoc.mk "alice" "python" 10] ∧
      get_streak "alice" "python" 10
          ([SubDoc.mk "alice" "python" 10] ++ [SubDoc.mk "alice" "python" 10]) =
        get_streak "alice" "python" 10 [SubDoc.mk "alice" "python" 10] :=
  ⟨by decide,
    claim_C4_duplicate_invariant "alice" "python" 10
      [SubDoc.mk "alice" "python" 10] (SubDoc.mk "alice" "python" 10) (by decide)⟩

/-- Claim C5: for a supported language, `POST /submit` appends a record
dated today and computes the streak over a window containing that record:
the returned collection is the input plus today's record, the response
carries `date = today`, and the streak is at least 1. -/
theorem claim_C5_submit_counts_today (u l : String) (today : Int)
    (subs : List SubDoc) (hl : l ∈ LANGUAGES) :
    ∃ resp,
      submit_solution u l today subs =
        (Except.ok resp, subs ++ [{ username := u, language := l, date := today }]) ∧
        resp.date = today ∧ 1 ≤ resp.streak := by
  have hnl : ¬l ∉ LANGUAGES := by simpa using hl
  set subs2 := subs ++ [SubDoc.mk u l today] with hsubs2
  have hmem : today ∈ distinctDates u l today subs2 := by
    simp only [distinctDates, get_documents, List.mem_toFinset, List.mem_map]
    refine ⟨SubDoc.mk u l today, List.mem_filter.2 ⟨?_, ?_⟩, rfl⟩
    · simp [hsubs2]
    · have hw : today - 60 ≤ today := by omega
      simp [submissionFilter, hw]
  refine ⟨{ ok := true, date := today,
            streak := streakLoop (distinctDates u l today subs2)
              ((distinctDates u l today subs2).card + 1) today }, ?_, rfl, ?_⟩
  · simp only [submit_solution, if_neg hnl, create_document, streakDays_eq, hsubs2]
  · rw [streakLoop_succ, if_pos hmem]
    exact Nat.succ_le_succ (Nat.zero_le _)

/-- Witness for C5: submitting with an empty store returns today's date
and a streak of (at least) 1. -/
theorem claim_C5_witness :
    "python" ∈ LANGUAGES ∧
      ∃ resp,
        submit_solution "alice" "python" 10 [] =
          (Except.ok resp,
            [] ++ [{ username := "alice", language := "python", date := 10 }]) ∧
          resp.date = 10 ∧ 1 ≤ resp.streak :=
  ⟨by decide, claim_C5_submit_counts_today "alice" "python" 10 [] (by decide)⟩

/-- Counterexample to claim C6 as stated: the query of `src/main.py` line
193 bounds the date only from below (`date >= start_date`), so a record
dated AFTER the reference day — outside the claimed trailing window ending
at `today` — is considered: with `today = 10`, appending a record dated 75
changes the response, and 75 shows up in the days list. -/
theorem claim_C6_counterexample :
    ¬((75 : Int) ≤ 10) ∧
      get_streak "alice" "python" 10 ([] ++ [SubDoc.mk "alice" "python" 75]) ≠
        get_streak "alice" "python" 10 [] ∧
      get_streak "alice" "python" 10 [SubDoc.mk "alice" "python" 75] =
        Except.ok { streak := 0, days := [75] } := by
  refine ⟨by norm_num, ?_, by rfl⟩
  intro h
  have e1 : get_streak "alice" "python" 10 ([] ++ [SubDoc.mk "alice" "python" 75]) =
      Except.ok (StreakResult.mk 0 [75]) := rfl
  have e2 : get_streak "alice" "python" 10 [] = Except.ok (StreakResult.mk 0 []) := rfl
  rw [e1, e2] at h
  have h2 := Except.ok.inj h
  simp at h2

/-- Claim C6, as amended: the code's window query bounds the date only
from below, so the streak computation considers exactly the stored records
of the given user and language dated on or after `today - 60` (records
dated after `today` included): a record with another username or language,
or dated before `today - 60`, changes neither the streak nor the days
list, and restricting the store to the filter the code actually applies
leaves the response unchanged. -/
theorem claim_C6_window_exact (u l : String) (today : Int) (subs : List SubDoc)
    (r : SubDoc) (hr : r.username ≠ u ∨ r.language ≠ l ∨ r.date < today - 60) :
    get_streak u l today (subs ++ [r]) = get_streak u l today subs ∧
      get_streak u l today subs =
        get_streak u l today (subs.filter (submissionFilter u l (today - 60))) := by
  constructor
  · apply get_streak_congr
    apply distinctDates_append_out
    simp only [submissionFilter, Bool.and_eq_false_iff]
    rcases hr with h | h | h
    · exact Or.inl (Or.inl (by simpa using h))
    · exact Or.inl (Or.inr (by simpa using h))
    · exact Or.inr (by simpa using by omega)
  · apply get_streak_congr
    unfold distinctDates get_documents
    rw [List.filter_filter]
    simp only [Bool.and_self]

/-- Witness for C6: a record by another user is appended and the result is
unchanged; filtering the store to the window changes nothing either. -/
theorem claim_C6_witness :
    ((SubDoc.mk "bob" "python" 10).username ≠ "alice" ∨
        (SubDoc.mk "bob" "python" 10).language ≠ "python" ∨
        (SubDoc.mk "bob" "python" 10).date < (10 : Int) - 60) ∧
      (get_streak "alice" "python" 10
            ([SubDoc.mk "alice" "python" 10] ++ [SubDoc.mk "bob" "python" 10]) =
          get_streak "alice" "python" 10 [SubDoc.mk "alice" "python" 10] ∧
        get_streak "alice" "python" 10 [SubDoc.mk "alice" "python" 10] =
          get_streak "alice" "python" 10
            ([SubDoc.mk "alice" "python" 10].filter
              (submissionFilter "alice" "python" ((10 : Int) - 60)))) :=
  ⟨by decide,
    claim_C6_window_exact "alice" "python" 10 [SubDoc.mk "alice" "python" 10]
      (SubDoc.mk "bob" "python" 10) (by decide)⟩

/-- Counterexample to claim C8 as stated: with `today = 10` and a single
record dated 75, the days list is `[75]`, yet no record has a date inside
the claimed trailing window `[today - 60, today]` — the "only if"
direction of the claimed iff fails because the query of `src/main.py`
line 193 has no upper date bound. -/
theorem claim_C8_counterexample :
    get_streak "alice" "python" 10 [SubDoc.mk "alice" "python" 75] =
        Except.ok { streak := 0, days := [75] } ∧
      (75 : Int) ∈ ([75] : List Int) ∧
      ¬∃ r ∈ [SubDoc.mk "alice" "python" 75],
        r.username = "alice" ∧ r.language = "python" ∧
          (10 : Int) - 60 ≤ r.date ∧ r.date ≤ 10 ∧ r.date = 75 :=
  ⟨by rfl, by decide, by decide⟩

/-- Claim C8, as amended: the `days` field of the streak response is the
sorted-ascending list of distinct queried submission dates: strictly
increasing, duplicate-free, and containing a date exactly when some stored
record of that user and language dated on or after `today - 60` has that
date (the code's query has no upper date bound, so dates after `today`
qualify as well). -/
theorem claim_C8_days_characterization (u l : String) (today : Int)
    (subs : List SubDoc) (res : StreakResult) (hl : l ∈ LANGUAGES)
    (h : get_streak u l today subs = Except.ok res) :
    List.Sorted (· < ·) res.days ∧ res.days.Nodup ∧
      ∀ d : Int, d ∈ res.days ↔
        ∃ r ∈ subs, r.username = u ∧ r.language = l ∧ today - 60 ≤ r.date ∧ r.date = d := by
  rw [get_streak_ok u l today subs hl] at h
  injection h with h
  subst h
  refine ⟨?_, ?_, ?_⟩
  · exact (daysList_sorted u l today subs).lt_of_le (daysList_nodup u l today subs)
  · exact daysList_nodup u l today subs
  · intro d
    show d ∈ daysList u l today subs ↔ _
    rw [← List.mem_toFinset, daysList_toFinset]
    simp only [distinctDates, get_documents, List.mem_toFinset, List.mem_map,
      List.mem_filter, submissionFilter, Bool.and_eq_true, beq_iff_eq,
      decide_eq_true_eq]
    constructor
    · rintro ⟨r, ⟨hr, ⟨hu, hlg⟩, hd⟩, hdate⟩
      exact ⟨r, hr, hu, hlg, hd, hdate⟩
    · rintro ⟨r, hr, hu, hlg, hd, hdate⟩
      exact ⟨r, ⟨hr, ⟨hu, hlg⟩, hd⟩, hdate⟩

/-- Witness for C8: store with a duplicated date; the days list comes out
sorted, duplicate-free, and exactly the in-window dates. -/
theorem claim_C8_witness :
    ("python" ∈ LANGUAGES ∧
        get_streak "alice" "python" 10
            [SubDoc.mk "alice" "python" 10, SubDoc.mk "alice" "python" 8,
              SubDoc.mk "alice" "python" 10] =
          Except.ok { streak := 1, days := [8, 10] }) ∧
      (List.Sorted (· < ·) (StreakResult.mk 1 [8, 10]).days ∧
        (StreakResult.mk 1 [8, 10]).days.Nodup ∧
        ∀ d : Int, d ∈ (StreakResult.mk 1 [8, 10]).days ↔
          ∃ r ∈ [SubDoc.mk "alice" "python" 10, SubDoc.mk "alice" "python" 8,
              SubDoc.mk "alice" "python" 10],
            r.username = "alice" ∧ r.language = "python" ∧
              (10 : Int) - 60 ≤ r.date ∧ r.date = d) :=
  ⟨⟨by decide, by rfl⟩,
    claim_C8_days_characterization "alice" "python" 10
      [SubDoc.mk "alice" "python" 10, SubDoc.mk "alice" "python" 8,
        SubDoc.mk "alice" "python" 10]
      (StreakResult.mk 1 [8, 10]) (by decide) (by rfl)⟩

/-- Claim C10: the backward-walking streak loop is a total function (the
embedding is a terminating recursion whose explicit bound is never
reached, `streakLoop_fuel_irrelevant`), and the computed streak never
exceeds the number of distinct in-window submission dates, i.e. the length
of the returned days list. -/
theorem claim_C10_terminating_bounded (u l : String) (today : Int)
    (subs : List SubDoc) (res : StreakResult)
    (h : get_streak u l today subs = Except.ok res) :
    res.streak ≤ res.days.length := by
  by_cases hl : l ∈ LANGUAGES
  · rw [get_streak_ok u l today subs hl] at h
    injection h with h
    subst h
    show streakLoop (distinctDates u l today subs)
        ((distinctDates u l today subs).card + 1) today ≤
      (daysList u l today subs).length
    calc streakLoop (distinctDates u l today subs)
          ((distinctDates u l today subs).card + 1) today
        ≤ ((distinctDates u l today subs).filter (fun x => x ≤ today)).card :=
          streakLoop_le_card_filter _ _ _
      _ ≤ (distinctDates u l today subs).card := Finset.card_filter_le _ _
      _ = ((daysList u l today subs).toFinset).card := by
          rw [daysList_toFinset]
      _ ≤ (daysList u l today subs).length := List.toFinset_card_le _
  · exfalso
    simp [get_streak, hl] at h

/-- Witness for C10: a two-day store; streak 1 is at most the two distinct
days. -/
theorem claim_C10_witness :
    get_streak "bob" "rust" 5 [SubDoc.mk "bob" "rust" 5, SubDoc.mk "bob" "rust" 3] =
        Except.ok { streak := 1, days := [3, 5] } ∧
      (StreakResult.mk 1 [3, 5]).streak ≤ (StreakResult.mk 1 [3, 5]).days.length :=
  ⟨by rfl,
    claim_C10_terminating_bounded "bob" "rust" 5
      [SubDoc.mk "bob" "rust" 5, SubDoc.mk "bob" "rust" 3]
      (StreakResult.mk 1 [3, 5]) (by rfl)⟩
